import Mathlib

/-!
Verification development for the conversational slot-filling engine:
entity extraction (entity_parser.py), dialogue state (conversation_manager.py),
schedule rendering (cron_converter.py) and the similarity cache (vector_search.py).

Modelling conventions:
* Python strings are Lean `String`; scanning is done over `List Char`.
  The regular expressions of the source are translated pattern by pattern into
  explicit scanners with the same leftmost-match, greedy-with-backtracking
  semantics (backtracking is written out only where the pattern can actually
  need it; where the character classes involved are disjoint, maximal-munch is
  equivalent and is used directly).
* Python dict values are the inductive `Value`; dicts are association lists
  with replace-in-place update, which agrees with Python insertion-ordered
  dicts for the key sets arising here.
* Word characters for the boundary assertions are the ASCII letters, digits and
  underscore (the messages handled by the service are ASCII).
* Floats of the similarity cache are modelled as real numbers; the float
  exponent operator applied to one half is modelled by Real.sqrt.
-/

/-- Python-style values stored in entity / slot dictionaries. -/
inductive Value where
  | str (s : String)
  | strList (l : List String)
  | int (n : Int)
  | bool (b : Bool)
  | none
  deriving DecidableEq, Repr

/-- Python truthiness for the values above. -/
def pyTruthy : Value → Bool
  | .str s => !(s == "")
  | .strList l => !l.isEmpty
  | .int n => !(n == 0)
  | .bool b => b
  | .none => false

/-- Association-list model of a Python dict (insertion ordered). -/
abbrev Dict := List (String × Value)

/-- Lookup of a key (first binding wins; dicts built by the operations below
never hold a key twice). -/
def dictGet (d : Dict) (k : String) : Option Value :=
  match d with
  | [] => Option.none
  | (k', v) :: t => if k' == k then some v else dictGet t k

/-- Set a key: replace the first binding in place, else append (Python dict
assignment keeps insertion order). -/
def dictSet (d : Dict) (k : String) (v : Value) : Dict :=
  match d with
  | [] => [(k, v)]
  | (k', v') :: t => if k' == k then (k', v) :: t else (k', v') :: dictSet t k v

/-- Python dict.update: fold the delta bindings into the dict in order. -/
def dictUpdate (d : Dict) (delta : Dict) : Dict :=
  delta.foldl (fun acc p => dictSet acc p.1 p.2) d

/-- Membership of a key, as Python `k in d`. -/
def dictHas (d : Dict) (k : String) : Bool :=
  (dictGet d k).isSome

/-- Needle is a prefix of hay (character lists). -/
def listStartsWith : List Char → List Char → Bool
  | [], _ => true
  | _ :: _, [] => false
  | n :: ns, h :: hs => n == h && listStartsWith ns hs

/-- Needle occurs somewhere in hay (character lists). -/
def listContainsSub (needle : List Char) : List Char → Bool
  | [] => listStartsWith needle []
  | c :: cs => listStartsWith needle (c :: cs) || listContainsSub needle cs

/-- Python `in` on strings: substring containment. -/
def containsSub (needle hay : String) : Bool :=
  listContainsSub needle.toList hay.toList

/-- ASCII lowering, modelling str.lower() on the ASCII messages handled here. -/
def toLowerStr (s : String) : String :=
  String.mk (s.toList.map Char.toLower)

/-- ASCII uppering of a character list, modelling str.upper(). -/
def listUpper (l : List Char) : String :=
  String.mk (l.map Char.toUpper)

/-- Whitespace class of the regex module (ASCII part). -/
def pyIsSpace (c : Char) : Bool :=
  c == ' ' || c == '\t' || c == '\n' || c == '\x0d' || c == '\x0b' || c == '\x0c'

/-- Word character for boundary assertions (ASCII). -/
def isWordChar (c : Char) : Bool :=
  c.isAlphanum || c == '_'

/-- Word-ness of an optional character; the ends of the string count as
non-word. -/
def isWordOpt : Option Char → Bool
  | Option.none => false
  | some c => isWordChar c

/-- Boundary test between the previous character and the start of the rest. -/
def boundAt (prev : Option Char) (l : List Char) : Bool :=
  isWordOpt prev != isWordOpt l.head?

/-- Consume a case-sensitive literal. -/
def litCS : List Char → List Char → Option (List Char)
  | [], l => some l
  | _ :: _, [] => Option.none
  | p :: ps, c :: cs => if c == p then litCS ps cs else Option.none

/-- Consume a case-insensitive literal (the pattern is given lowercase). -/
def litCI : List Char → List Char → Option (List Char)
  | [], l => some l
  | _ :: _, [] => Option.none
  | p :: ps, c :: cs => if c.toLower == p then litCI ps cs else Option.none

/-- Maximal run of characters in a class. -/
def takeRun (p : Char → Bool) : List Char → List Char × List Char
  | [] => ([], [])
  | c :: cs =>
    if p c then
      let r := takeRun p cs
      (c :: r.1, r.2)
    else ([], c :: cs)

/-- Greedy run of at least n characters of a class (no shorter run can help
when the following pattern piece is disjoint from the class). -/
def runAtLeast (p : Char → Bool) (n : Nat) (l : List Char) :
    Option (List Char × List Char) :=
  let r := takeRun p l
  if n ≤ r.1.length then some r else Option.none

/-- Leftmost search of a matcher that does not look at the previous
character. -/
def searchPos {α : Type} (f : List Char → Option α) : List Char → Option α
  | [] => f []
  | c :: cs => f (c :: cs) <|> searchPos f cs

/-- Leftmost search of a matcher that also receives the previous character
(for boundary assertions). -/
def searchPrev {α : Type} (f : Option Char → List Char → Option α) :
    Option Char → List Char → Option α
  | prev, [] => f prev []
  | prev, c :: cs => f prev (c :: cs) <|> searchPrev f (some c) cs

/-! ## EntityParser._extract_merchant_id -/

/-- Character class of a merchant token (class A-Z0-9_- with IGNORECASE). -/
def idChar (c : Char) : Bool :=
  c.isAlphanum || c == '_' || c == '-'

/-- Colon-or-whitespace class of the keyword patterns. -/
def colonWs (c : Char) : Bool :=
  c == ':' || pyIsSpace c

/-- Keyword pattern: backslash-b mid [colon-ws]+ group (id chars, 3 or more). -/
def kwMid (prev : Option Char) (l : List Char) : Option (List Char) :=
  if boundAt prev l then do
    let r1 ← litCI "mid".toList l
    let (_, r2) ← runAtLeast colonWs 1 r1
    let (g, _) ← runAtLeast idChar 3 r2
    pure g
  else Option.none

/-- Keyword pattern: merchant [ws]* id [colon-ws]+ group. -/
def kwMerchantId (_prev : Option Char) (l : List Char) : Option (List Char) := do
  let r1 ← litCI "merchant".toList l
  let r2 := (takeRun pyIsSpace r1).2
  let r3 ← litCI "id".toList r2
  let (_, r4) ← runAtLeast colonWs 1 r3
  let (g, _) ← runAtLeast idChar 3 r4
  pure g

/-- Keyword pattern: backslash-b merchant [ws]+ group. -/
def kwMerchant (prev : Option Char) (l : List Char) : Option (List Char) :=
  if boundAt prev l then do
    let r1 ← litCI "merchant".toList l
    let (_, r2) ← runAtLeast pyIsSpace 1 r1
    let (g, _) ← runAtLeast idChar 3 r2
    pure g
  else Option.none

/-- Keyword pattern: backslash-b mid [ws]+ group. -/
def kwMidWs (prev : Option Char) (l : List Char) : Option (List Char) :=
  if boundAt prev l then do
    let r1 ← litCI "mid".toList l
    let (_, r2) ← runAtLeast pyIsSpace 1 r1
    let (g, _) ← runAtLeast idChar 3 r2
    pure g
  else Option.none

/-- Stoplist applied to keyword-extracted candidates. -/
def kwStop : List String :=
  ["ID", "TYPE", "STATUS", "FORMAT", "YANG", "APA", "BISA", "AJA", "SAJA"]

/-- Stoplist applied to heuristically extracted candidates. -/
def patStop : List String :=
  ["REPORT", "TRANSAKSI", "LAPORAN", "EXCEL", "HARIAN",
   "SETIAP", "UNTUK", "DENGAN", "FORMAT", "KIRIM",
   "EMAIL", "HARI", "BULAN", "TAHUN", "TANGGAL",
   "YANG", "APA", "BISA", "AJA", "SAJA", "MERCHANT"]

/-- One keyword-pattern step of the extraction loop: if the pattern matches,
either return the uppercased candidate or (if stoplisted) fall through to the
next pattern. -/
def tryKw (m : Option Char → List Char → Option (List Char)) (msg : List Char)
    (next : Option String) : Option String :=
  match searchPrev m Option.none msg with
  | some g =>
    let u := listUpper g
    if kwStop.contains u then next else some u
  | Option.none => next

def isUpperAZ (c : Char) : Bool := 'A' ≤ c && c ≤ 'Z'

/-- Heuristic pattern A: backslash-b [A-Z]{3,}[0-9]{2,} backslash-b
(case sensitive). Returns the group and the rest after the match. -/
def patUpperDigits (prev : Option Char) (l : List Char) :
    Option (List Char × List Char) :=
  if isWordOpt prev then Option.none
  else
    let (ls, r1) := takeRun isUpperAZ l
    if 3 ≤ ls.length then
      let (ds, r2) := takeRun (fun c => c.isDigit) r1
      if 2 ≤ ds.length then
        if isWordOpt r2.head? then Option.none
        else some (ls ++ ds, r2)
      else Option.none
    else Option.none

/-- Class of heuristic pattern B (case sensitive A-Z0-9_-). -/
def bClassChar (c : Char) : Bool :=
  isUpperAZ c || c.isDigit || c == '_' || c == '-'

/-- Greedy backtracking for a trailing word boundary: largest k with
minLen ≤ k ≤ run length such that a word boundary holds after the first k run
characters (the character after those k is the next run character, or the
first character after the run, or the end of the string). -/
def backBound (minLen : Nat) (run after : List Char) : Nat → Option Nat
  | 0 => Option.none
  | Nat.succ k =>
    if minLen ≤ Nat.succ k then
      match run.get? k with
      | some last =>
        let next := (run.get? (Nat.succ k)).orElse (fun _ => after.head?)
        if isWordChar last != isWordOpt next then some (Nat.succ k)
        else backBound minLen run after k
      | Option.none => backBound minLen run after k
    else Option.none

/-- Heuristic pattern B: backslash-b [A-Z][A-Z0-9_-]{4,} backslash-b with the
greedy run backtracking over the trailing boundary. -/
def patUpperStart (prev : Option Char) (l : List Char) :
    Option (List Char × List Char) :=
  if isWordOpt prev then Option.none
  else
    match l with
    | [] => Option.none
    | c :: rest =>
      if isUpperAZ c then
        let (run, after) := takeRun bClassChar rest
        match backBound 4 run after run.length with
        | some k => some (c :: run.take k, run.drop k ++ after)
        | Option.none => Option.none
      else Option.none

/-- Heuristic pattern C: backslash-b [0-9]{5,} backslash-b. -/
def patDigits (prev : Option Char) (l : List Char) :
    Option (List Char × List Char) :=
  if isWordOpt prev then Option.none
  else
    let (ds, r) := takeRun (fun c => c.isDigit) l
    if 5 ≤ ds.length then
      if isWordOpt r.head? then Option.none else some (ds, r)
    else Option.none

/-- re.findall: collect the non-overlapping leftmost matches, resuming after
each match (fuel bounds the scan by the string length). -/
def findAllAux (m : Option Char → List Char → Option (List Char × List Char)) :
    Nat → Option Char → List Char → List (List Char)
  | 0, _, _ => []
  | Nat.succ fuel, prev, l =>
    match m prev l with
    | some (g, rest) => g :: findAllAux m fuel (some (g.getLastD ' ')) rest
    | Option.none =>
      match l with
      | [] => []
      | c :: cs => findAllAux m fuel (some c) cs

def findAll (m : Option Char → List Char → Option (List Char × List Char))
    (msg : List Char) : List (List Char) :=
  findAllAux m (msg.length + 1) Option.none msg

/-- One heuristic-pattern step: first non-stoplisted uppercased match wins,
otherwise fall through. -/
def tryPat (m : Option Char → List Char → Option (List Char × List Char))
    (msg : List Char) (next : Option String) : Option String :=
  match ((findAll m msg).map listUpper).find? (fun u => !patStop.contains u) with
  | some u => some u
  | Option.none => next

/-- Models EntityParser._extract_merchant_id. -/
def extract_merchant_id (message : String) : Option String :=
  let msg := message.toList
  tryKw kwMid msg (tryKw kwMerchantId msg (tryKw kwMerchant msg (tryKw kwMidWs msg
    (tryPat patUpperDigits msg (tryPat patUpperStart msg (tryPat patDigits msg
      Option.none))))))

/-! ## EntityParser simple extractors -/

/-- Models EntityParser._extract_report_type. -/
def extract_report_type (message : String) : Option String :=
  if ["transaksi", "transaction", "payment", "pembayaran"].any
      (fun w => containsSub w message) then some "transaction"
  else if ["settlement", "settle"].any (fun w => containsSub w message) then
    some "settlement"
  else if ["refund"].any (fun w => containsSub w message) then some "refund"
  else Option.none

/-- Models EntityParser._extract_status_filter. -/
def extract_status_filter (message : String) : Option (List String) :=
  if ["sukses", "success", "berhasil", "successful", "paid", "captured"].any
      (fun w => containsSub w message) then some ["PAID", "CAPTURED"]
  else if ["gagal", "failed", "failure", "expired", "cancel"].any
      (fun w => containsSub w message) then some ["FAILED", "EXPIRED", "CANCELLED"]
  else if ["semua", "all", "seluruh"].any (fun w => containsSub w message) then
    some ["ALL"]
  else Option.none

/-- Models EntityParser._extract_date_range. -/
def extract_date_range (message : String) : Option String :=
  if ["7 hari", "seminggu", "last 7 days", "past 7 days", "7 day"].any
      (fun w => containsSub w message) then some "last_7_days"
  else if ["30 hari", "sebulan", "last 30 days", "past 30 days", "30 day",
      "last month"].any (fun w => containsSub w message) then some "last_30_days"
  else if ["minggu ini", "this week"].any (fun w => containsSub w message) then
    some "this_week"
  else if ["minggu lalu", "last week"].any (fun w => containsSub w message) then
    some "last_week"
  else if ["bulan ini", "this month"].any (fun w => containsSub w message) then
    some "this_month"
  else if ["hari ini", "today"].any (fun w => containsSub w message) then
    some "today"
  else if ["kemarin", "yesterday"].any (fun w => containsSub w message) then
    some "yesterday"
  else Option.none

/-- Models EntityParser._extract_output_format. -/
def extract_output_format (message : String) : Option String :=
  if ["excel", "xlsx", ".xlsx"].any (fun w => containsSub w message) then
    some "xlsx"
  else if ["csv", ".csv"].any (fun w => containsSub w message) then some "csv"
  else if ["pdf", ".pdf"].any (fun w => containsSub w message) then some "pdf"
  else Option.none

/-- Models EntityParser._extract_timezone (note: wita is tested before wit,
as in the source). -/
def extract_timezone (message : String) : Option String :=
  if containsSub "wib" message then some "Asia/Jakarta"
  else if containsSub "wita" message then some "Asia/Makassar"
  else if containsSub "wit" message then some "Asia/Jayapura"
  else Option.none

/-! ## EntityParser._extract_cron

The regular expressions of the cascade are translated one by one. Where a
pattern piece is followed by a piece whose character class is disjoint (for
example a digit run followed by a literal space), greedy maximal-munch needs no
backtracking and is used directly; the optional groups and trailing boundary
assertions, where backtracking is possible, are written out with explicit
alternation. -/

/-- Consume one or more whitespace characters (maximal). -/
def wsP (l : List Char) : Option (List Char) :=
  (runAtLeast pyIsSpace 1 l).map (fun p => p.2)

/-- Capture one or more digits (maximal). -/
def digitsP (l : List Char) : Option (String × List Char) :=
  (runAtLeast (fun c => c.isDigit) 1 l).map (fun p => (String.mk p.1, p.2))

/-- Capture one or more digits followed by a word boundary. -/
def digitsBoundP (l : List Char) : Option (String × List Char) := do
  let (ds, r) ← runAtLeast (fun c => c.isDigit) 1 l
  if isWordOpt r.head? then Option.none else pure (String.mk ds, r)

/-- Field class of the direct five-field pattern. -/
def cronFieldClass (c : Char) : Bool :=
  c == '*' || c == '/' || c == '-' || c == ',' || c.isDigit

/-- One field of the direct pattern followed by mandatory whitespace
(alternation digits, star, generic class, in source order). -/
def cronFieldWs (l : List Char) : Option (String × List Char) :=
  (do
    let (ds, r) ← runAtLeast (fun c => c.isDigit) 1 l
    let r2 ← wsP r
    pure (String.mk ds, r2)) <|>
  (do
    let r ← litCS "*".toList l
    let r2 ← wsP r
    pure ("*", r2)) <|>
  (do
    let (run, r) ← runAtLeast cronFieldClass 1 l
    let r2 ← wsP r
    pure (String.mk run, r2))

/-- Final field of the direct pattern followed by a word boundary; the generic
class can contain non-word characters, so the trailing boundary backtracks. -/
def cronField5 (l : List Char) : Option String :=
  (do
    let (ds, r) ← runAtLeast (fun c => c.isDigit) 1 l
    if isWordOpt r.head? then Option.none else pure (String.mk ds)) <|>
  (do
    let r ← litCS "*".toList l
    if isWordOpt r.head? then pure "*" else Option.none) <|>
  (do
    let (run, after) ← runAtLeast cronFieldClass 1 l
    match backBound 1 run after run.length with
    | some k => pure (String.mk (run.take k))
    | Option.none => Option.none)

/-- Matcher of priority 1: a literal five-field expression with word
boundaries at both ends. -/
def directCronAt (prev : Option Char) (l : List Char) : Option String :=
  if boundAt prev l then do
    let (f1, r1) ← cronFieldWs l
    let (f2, r2) ← cronFieldWs r1
    let (f3, r3) ← cronFieldWs r2
    let (f4, r4) ← cronFieldWs r3
    let f5 ← cronField5 r4
    pure (f1 ++ " " ++ f2 ++ " " ++ f3 ++ " " ++ f4 ++ " " ++ f5)
  else Option.none

def stage_direct_cron (message : String) : Option String :=
  searchPrev directCronAt Option.none message.toList

/-- Priority 2: every N minutes (case-sensitive patterns, combined
alternation searched leftmost as in the source). -/
def mSetiapMenit (l : List Char) : Option String := do
  let r1 ← litCS "setiap ".toList l
  let (d, r2) ← digitsP r1
  let _ ← litCS " menit".toList r2
  pure d

def mEveryMinute (l : List Char) : Option String := do
  let r1 ← litCS "every ".toList l
  let (d, r2) ← digitsP r1
  let _ ← litCS " minute".toList r2
  pure d

def stage_every_minutes (message : String) : Option String :=
  (searchPos (fun l => mSetiapMenit l <|> mEveryMinute l) message.toList).map
    (fun m => "*/" ++ m ++ " * * * *")

/-- Priority 3: every N hours. -/
def mSetiapJam (l : List Char) : Option String := do
  let r1 ← litCS "setiap ".toList l
  let (d, r2) ← digitsP r1
  let _ ← litCS " jam".toList r2
  pure d

def mEveryHour (l : List Char) : Option String := do
  let r1 ← litCS "every ".toList l
  let (d, r2) ← digitsP r1
  let _ ← litCS " hour".toList r2
  pure d

def stage_every_hours (message : String) : Option String :=
  (searchPos (fun l => mSetiapJam l <|> mEveryHour l) message.toList).map
    (fun h => "0 */" ++ h ++ " * * *")

/-- Indonesian weekday names with their cron weekday numbers, in source
order. -/
def dayNamesId : List (String × String) :=
  [("senin", "1"), ("selasa", "2"), ("rabu", "3"), ("kamis", "4"),
   ("jumat", "5"), ("sabtu", "6"), ("minggu", "0")]

/-- English weekday names with their cron weekday numbers, in source order. -/
def dayNamesEn : List (String × String) :=
  [("monday", "1"), ("tuesday", "2"), ("wednesday", "3"), ("thursday", "4"),
   ("friday", "5"), ("saturday", "6"), ("sunday", "0")]

/-- Optional jam prefix before the hour digits (greedy, with fallback). -/
def jamDigits (l : List Char) : Option String :=
  (do
    let r1 ← litCI "jam".toList l
    let r2 ← wsP r1
    let (d, _) ← digitsP r2
    pure d) <|> (digitsP l).map (fun p => p.1)

/-- Optional jam prefix before hour digits that must end at a word
boundary. -/
def jamDigitsBound (l : List Char) : Option String :=
  (do
    let r1 ← litCI "jam".toList l
    let r2 ← wsP r1
    let (d, _) ← digitsBoundP r2
    pure d) <|> (digitsBoundP l).map (fun p => p.1)

/-- Optional hari prefix (greedy, with fallback to the continuation). -/
def optHari (l : List Char) (k : List Char → Option String) : Option String :=
  (do
    let r1 ← litCI "hari".toList l
    let r2 ← wsP r1
    k r2) <|> k l

/-- Weekday family: day weekly-or-mingguan hour. -/
def dayF1 (day : String) (_prev : Option Char) (l : List Char) : Option String := do
  let r1 ← litCI day.toList l
  let r2 ← wsP r1
  let r3 ← litCI "weekly".toList r2 <|> litCI "mingguan".toList r2
  let r4 ← wsP r3
  jamDigits r4

/-- Weekday family: weekly-or-mingguan day hour. -/
def dayF2 (day : String) (_prev : Option Char) (l : List Char) : Option String := do
  let r1 ← litCI "weekly".toList l <|> litCI "mingguan".toList l
  let r2 ← wsP r1
  let r3 ← litCI day.toList r2
  let r4 ← wsP r3
  jamDigits r4

/-- Weekday family: setiap optional-hari day hour. -/
def dayF3 (day : String) (_prev : Option Char) (l : List Char) : Option String := do
  let r1 ← litCI "setiap".toList l
  let r2 ← wsP r1
  optHari r2 (fun r3 => do
    let r4 ← litCI day.toList r3
    let r5 ← wsP r4
    jamDigits r5)

/-- Weekday family: tiap-or-every optional-hari day hour. -/
def dayF4 (day : String) (_prev : Option Char) (l : List Char) : Option String := do
  let r1 ← litCI "tiap".toList l <|> litCI "every".toList l
  let r2 ← wsP r1
  optHari r2 (fun r3 => do
    let r4 ← litCI day.toList r3
    let r5 ← wsP r4
    jamDigits r5)

/-- Weekday family: every english-day at hour. -/
def dayF5 (day : String) (_prev : Option Char) (l : List Char) : Option String := do
  let r1 ← litCI "every".toList l
  let r2 ← wsP r1
  let r3 ← litCI day.toList r2
  let r4 ← wsP r3
  let r5 ← litCI "at".toList r4
  let r6 ← wsP r5
  let (d, _) ← digitsP r6
  pure d

/-- Weekday family: bare day name with hour, guarded by word boundaries. -/
def dayF6 (day : String) (prev : Option Char) (l : List Char) : Option String :=
  if boundAt prev l then do
    let r1 ← litCI day.toList l
    let r2 ← wsP r1
    jamDigitsBound r2
  else Option.none

/-- The day-pattern cascade, in source order: each entry is one compiled
pattern together with the weekday number of its builder. -/
def dayPatternList : List ((Option Char → List Char → Option String) × String) :=
  dayNamesId.map (fun p => (dayF1 p.1, p.2)) ++
  dayNamesId.map (fun p => (dayF2 p.1, p.2)) ++
  dayNamesId.map (fun p => (dayF3 p.1, p.2)) ++
  dayNamesId.map (fun p => (dayF4 p.1, p.2)) ++
  dayNamesEn.map (fun p => (dayF5 p.1, p.2)) ++
  dayNamesId.map (fun p => (dayF6 p.1, p.2))

/-- First pattern of the cascade that matches anywhere in the message wins. -/
def firstDayPattern :
    List ((Option Char → List Char → Option String) × String) → List Char →
    Option String
  | [], _ => Option.none
  | (m, num) :: rest, msg =>
    match searchPrev m Option.none msg with
    | some h => some ("0 " ++ h ++ " * * " ++ num)
    | Option.none => firstDayPattern rest msg

def stage_day_patterns (message : String) : Option String :=
  firstDayPattern dayPatternList message.toList

/-- Priority 5: generic daily-hour phrases (not guarded by the weekday
keyword check). -/
def mDaily1 (l : List Char) : Option String := do
  let r1 ← litCI "setiap hari jam ".toList l
  let (d, _) ← digitsP r1
  pure d

def mDaily2 (l : List Char) : Option String := do
  let r1 ← litCI "every day at ".toList l
  let (d, _) ← digitsP r1
  pure d

def mDaily3 (l : List Char) : Option String := do
  let r1 ← litCI "daily at ".toList l
  let (d, _) ← digitsP r1
  pure d

def mDaily4 (l : List Char) : Option String := do
  let r1 ← litCI "jam ".toList l
  let (d, r2) ← digitsP r1
  let _ ← litCI " setiap hari".toList r2
  pure d

def mDaily5 (l : List Char) : Option String := do
  let r1 ← litCI "tiap hari jam ".toList l
  let (d, _) ← digitsP r1
  pure d

def stage_daily (message : String) : Option String :=
  let msg := message.toList
  ((searchPos mDaily1 msg).orElse (fun _ =>
   (searchPos mDaily2 msg).orElse (fun _ =>
   (searchPos mDaily3 msg).orElse (fun _ =>
   (searchPos mDaily4 msg).orElse (fun _ =>
   searchPos mDaily5 msg))))).map (fun h => "0 " ++ h ++ " * * *")

/-- Optional alternation of literal prefixes followed by a continuation
(greedy, in the given order, with fallback to no prefix). -/
def altPrefixes (ps : List String) (l : List Char)
    (k : List Char → Option String) : Option String :=
  match ps with
  | [] => k l
  | p :: rest => (litCI p.toList l >>= k) <|> altPrefixes rest l k

/-- Optional English ordinal suffix with continuation. -/
def ordSuffix (l : List Char) (k : List Char → Option String) : Option String :=
  (litCI "st".toList l >>= k) <|> (litCI "nd".toList l >>= k) <|>
  (litCI "rd".toList l >>= k) <|> (litCI "th".toList l >>= k) <|> k l

/-- Monthly result with day and hour. -/
def monthlyDH (d h : String) : String := "0 " ++ h ++ " " ++ d ++ " * *"

/-- Monthly result with day only (hour defaults to 8). -/
def monthlyD (d : String) : String := "0 8 " ++ d ++ " * *"

/-- Monthly result with hour only (day defaults to 1). -/
def monthlyH (h : String) : String := "0 " ++ h ++ " 1 * *"

/-- lead day-with-hour monthly pattern: prefix, digits, space, optional
qualifier, bulan jam, digits. The optional tail of the hour-less patterns of
the source cannot affect whether the pattern matches nor its first group, so
it is not consumed here. -/
def mTglBulanJam (lead : String) (l : List Char) : Option String := do
  let r1 ← litCI lead.toList l
  let (d, r2) ← digitsP r1
  let r3 ← litCI " ".toList r2
  altPrefixes ["setiap ", "tiap ", "di "] r3 (fun r4 => do
    let r5 ← litCI "bulan jam ".toList r4
    let (h, _) ← digitsP r5
    pure (monthlyDH d h))

/-- Pattern of shape lead digits mid digits, built into day-hour order. -/
def mTwoGroups (lead mid : String) (build : String → String → String)
    (l : List Char) : Option String := do
  let r1 ← litCI lead.toList l
  let (a, r2) ← digitsP r1
  let r3 ← litCI mid.toList r2
  let (b, _) ← digitsP r3
  pure (build a b)

/-- Pattern of shape lead digits, one group. -/
def mOneGroup (lead : String) (build : String → String) (l : List Char) :
    Option String := do
  let r1 ← litCI lead.toList l
  let (a, _) ← digitsP r1
  pure (build a)

/-- Pattern of shape lead digits tail, one group. -/
def mOneGroupTail (lead tail : String) (build : String → String)
    (l : List Char) : Option String := do
  let r1 ← litCI lead.toList l
  let (a, r2) ← digitsP r1
  let _ ← litCI tail.toList r2
  pure (build a)

/-- English pattern: every day-number optional-ordinal at hour. -/
def mEnglishOrd (lead : String) (l : List Char) : Option String := do
  let r1 ← litCI lead.toList l
  let (d, r2) ← digitsP r1
  ordSuffix r2 (fun r3 => do
    let r4 ← litCI " at ".toList r3
    let (h, _) ← digitsP r4
    pure (monthlyDH d h))

/-- English pattern: day-number optional-ordinal of every month at hour. -/
def mOfEveryMonth (l : List Char) : Option String := do
  let (d, r1) ← digitsP l
  ordSuffix r1 (fun r2 => do
    let r3 ← litCI " of every month at ".toList r2
    let (h, _) ← digitsP r3
    pure (monthlyDH d h))

/-- The monthly pattern cascade, in source order. -/
def monthlyPatternList : List (List Char → Option String) :=
  [mTglBulanJam "setiap tgl ",
   mTglBulanJam "tiap tgl ",
   mTwoGroups "setiap tgl " " jam " monthlyDH,
   mTwoGroups "tiap tgl " " jam " monthlyDH,
   mOneGroup "setiap tgl " monthlyD,
   mOneGroup "tiap tgl " monthlyD,
   mOneGroup "tgl " monthlyD,
   mTwoGroups "setiap tanggal " " jam " monthlyDH,
   mTwoGroups "tiap tanggal " " jam " monthlyDH,
   mTwoGroups "tanggal " " setiap bulan jam " monthlyDH,
   mTwoGroups "tanggal " " tiap bulan jam " monthlyDH,
   mOneGroup "setiap tanggal " monthlyD,
   mOneGroup "tiap tanggal " monthlyD,
   mOneGroupTail "tanggal " " tiap bulan" monthlyD,
   mOneGroupTail "tanggal " " setiap bulan" monthlyD,
   mTwoGroups "bulanan tanggal " " jam " monthlyDH,
   mTwoGroups "monthly tanggal " " jam " monthlyDH,
   mEnglishOrd "every ",
   mEnglishOrd "monthly on ",
   mOfEveryMonth,
   mTwoGroups "setiap tanggal " " pukul " monthlyDH,
   mTwoGroups "tanggal " " pukul " monthlyDH,
   mOneGroup "bulanan jam " monthlyH,
   mOneGroup "monthly at " monthlyH]

def firstMonthlyPattern : List (List Char → Option String) → List Char →
    Option String
  | [], _ => Option.none
  | m :: rest, msg =>
    match searchPos m msg with
    | some r => some r
    | Option.none => firstMonthlyPattern rest msg

def stage_monthly (message : String) : Option String :=
  firstMonthlyPattern monthlyPatternList message.toList

/-- Weekday keywords recognised anywhere in the lowered message. -/
def dayKeywords : List String :=
  ["senin", "selasa", "rabu", "kamis", "jumat", "sabtu", "minggu",
   "monday", "tuesday", "wednesday", "thursday", "friday", "saturday", "sunday"]

def hasDayKeyword (message : String) : Bool :=
  dayKeywords.any (fun k => containsSub k (toLowerStr message))

/-- Priority 7: generic day-part fallback, applied only when no weekday
keyword occurs anywhere in the message. -/
def stage_day_part (message : String) : Option String :=
  if !hasDayKeyword message then
    if containsSub "pagi" message || containsSub "morning" message then
      some "0 8 * * *"
    else if containsSub "siang" message || containsSub "noon" message then
      some "0 12 * * *"
    else if containsSub "sore" message || containsSub "afternoon" message then
      some "0 17 * * *"
    else if containsSub "malam" message || containsSub "night" message then
      some "0 20 * * *"
    else Option.none
  else Option.none

/-- Models EntityParser._extract_cron: the priority cascade. -/
def extract_cron (message : String) : Option String :=
  (stage_direct_cron message).orElse (fun _ =>
  (stage_every_minutes message).orElse (fun _ =>
  (stage_every_hours message).orElse (fun _ =>
  (stage_day_patterns message).orElse (fun _ =>
  (stage_daily message).orElse (fun _ =>
  (stage_monthly message).orElse (fun _ =>
  stage_day_part message))))))

/-- Models EntityParser._extract_schedule: the source always writes the
timezone (extracted or the Jakarta default) into its result dict first, then
the cron expression, and returns the dict only when a cron expression was
found; hence the returned dict, when present, is exactly the pair below. -/
def extract_schedule (message : String) : Option Dict :=
  match extract_cron message with
  | some cron =>
    some [("timezone", Value.str ((extract_timezone message).getD "Asia/Jakarta")),
          ("cron_schedule", Value.str cron)]
  | Option.none => Option.none

/-! ## EntityParser._extract_emails -/

/-- Local-part class of the email pattern. -/
def emailLocalChar (c : Char) : Bool :=
  c.isAlphanum || c == '.' || c == '_' || c == '%' || c == '+' || c == '-'

/-- Domain class of the email pattern. -/
def emailDomChar (c : Char) : Bool :=
  c.isAlphanum || c == '.' || c == '-'

/-- Top-level-domain class of the email pattern (the source class A-Z pipe a-z
literally contains the pipe character). -/
def emailTldChar (c : Char) : Bool :=
  c.isAlpha || c == '|'

/-- Backtracking over the domain length: the greedy domain run must give back
characters until a literal dot followed by two or more tld characters and a
word boundary fits. Tries domain length k down to 1, longest first. -/
def emailTail (l : List Char) : Nat → Option (List Char × List Char)
  | 0 => Option.none
  | Nat.succ k =>
    (do
      if l.get? (Nat.succ k) == some '.' then
        let rest := l.drop (Nat.succ k + 1)
        let (tr, tafter) := takeRun emailTldChar rest
        match backBound 2 tr tafter tr.length with
        | some j => some (l.take (Nat.succ k) ++ '.' :: tr.take j,
                          tr.drop j ++ tafter)
        | Option.none => Option.none
      else Option.none) <|> emailTail l k

/-- Matcher of the email pattern at one position. -/
def emailAt (prev : Option Char) (l : List Char) :
    Option (List Char × List Char) :=
  if boundAt prev l then do
    let (loc, r1) ← runAtLeast emailLocalChar 1 l
    let r2 ← litCS "@".toList r1
    let m := (takeRun emailDomChar r2).1.length
    let (tail, rest) ← emailTail r2 m
    pure (loc ++ '@' :: tail, rest)
  else Option.none

/-- Models EntityParser._extract_emails; the matches contain no whitespace, so
the strip of the source is the identity on them. -/
def extract_emails (message : String) : Option (List String) :=
  let ms := (findAll emailAt message.toList).map String.mk
  if ms.isEmpty then Option.none else some ms

/-! ## EntityParser.parse_message -/

/-- The extractions performed after the merchant check, appended to the
entity dict in source order. -/
def parseRest (init : Dict) (message message_lower : String) : Dict :=
  let e1 := init ++ (match extract_report_type message_lower with
    | some t => [("report_type", Value.str t)]
    | Option.none => [])
  let e2 := e1 ++ (match extract_status_filter message_lower with
    | some s => [("status_filter", Value.strList s)]
    | Option.none => [])
  let e3 := e2 ++ (match extract_date_range message_lower with
    | some d => [("date_range", Value.str d)]
    | Option.none => [])
  let e4 := e3 ++ (match extract_output_format message_lower with
    | some f => [("output_format", Value.str f)]
    | Option.none => [])
  let e5 := e4 ++ (match extract_schedule message_lower with
    | some sched => sched
    | Option.none => [])
  e5 ++ (match extract_emails message with
    | some es => [("email_recipients", Value.strList es)]
    | Option.none => [])

/-- Models EntityParser.parse_message: merchant extraction and authorization
check first, then the remaining extractors. -/
def parse_message (message : String)
    (allowed_merchant_ids : Option (List String)) : Dict :=
  let message_lower := toLowerStr message
  match extract_merchant_id message with
  | some mid =>
    match allowed_merchant_ids with
    | some allowed =>
      if allowed.contains mid then
        parseRest [("merchant_id", Value.str mid)] message message_lower
      else
        [("_merchant_error", Value.str mid),
         ("_allowed_merchants", Value.strList allowed)]
    | Option.none => parseRest [("merchant_id", Value.str mid)] message message_lower
  | Option.none => parseRest [] message message_lower

/-! ## ConversationManager

Sessions are modelled by an association list from session id to session
record; the in-place mutation of the Python dicts becomes replacement of the
session under its key. Fields not involved in any claim (user id, language,
start time) are kept for shape. -/

structure Turn where
  role : String
  content : String
  deriving DecidableEq, Repr

structure Session where
  session_id : String
  user_id : String
  language : String
  conversation_history : List Turn
  collected_data : Dict
  missing_fields : List String
  next_action : String
  is_complete : Bool
  deriving DecidableEq, Repr

/-- The session store of one ConversationManager. -/
abbrev Manager := List (String × Session)

def mgrGet (m : Manager) (sid : String) : Option Session :=
  match m with
  | [] => Option.none
  | (k, s) :: t => if k == sid then some s else mgrGet t sid

def mgrSet (m : Manager) (sid : String) (s : Session) : Manager :=
  match m with
  | [] => [(sid, s)]
  | (k, s') :: t => if k == sid then (k, s) :: t else (k, s') :: mgrSet t sid s

/-- Field schema scanned by _update_missing_fields (date_range and timezone
are commented out in the source). -/
def all_fields : List String :=
  ["merchant_id", "report_type", "status_filter", "output_format",
   "cron_schedule", "email_recipients"]

/-- Models ConversationManager._update_missing_fields: the missing list is the
schema filtered to absent-or-falsy keys, in schema order. -/
def compute_missing (collected : Dict) : List String :=
  all_fields.filter (fun f =>
    match dictGet collected f with
    | some v => !pyTruthy v
    | Option.none => true)

/-- Models ConversationManager.update_session. Returns the Python result flag
and the new store. -/
def update_session (m : Manager) (sid : String) (collected_data : Option Dict)
    (missing_fields : Option (List String)) (next_action : Option String)
    (is_complete : Option Bool) : Bool × Manager :=
  match mgrGet m sid with
  | Option.none => (false, m)
  | some s =>
    let s1 :=
      match collected_data with
      | some delta =>
        if delta.isEmpty then s
        else
          let c := dictUpdate s.collected_data delta
          { s with collected_data := c, missing_fields := compute_missing c }
      | Option.none => s
    let s2 :=
      match missing_fields with
      | some mf => { s1 with missing_fields := mf }
      | Option.none => s1
    let s3 :=
      match next_action with
      | some na => if na == "" then s2 else { s2 with next_action := na }
      | Option.none => s2
    let s4 :=
      match is_complete with
      | some ic => { s3 with is_complete := ic }
      | Option.none => s3
    (true, mgrSet m sid s4)

/-- Hard-required fields of check_completeness. -/
def required_fields : List String :=
  ["merchant_id", "output_format", "cron_schedule", "email_recipients"]

/-- The default autofill performed by check_completeness on the live slot
map. -/
def autofillDefaults (collected : Dict) : Dict :=
  let c1 := if dictHas collected "status_filter" then collected
    else collected ++ [("status_filter", Value.strList ["PAID", "CAPTURED"])]
  let c2 := if dictHas c1 "report_type" then c1
    else c1 ++ [("report_type", Value.str "transaction")]
  if dictHas c2 "timezone" then c2
  else c2 ++ [("timezone", Value.str "Asia/Jakarta")]

/-- Models ConversationManager.check_completeness (its boolean result; the
source also writes the autofilled defaults back into the live session). -/
def check_completeness (m : Manager) (sid : String) : Bool :=
  match mgrGet m sid with
  | Option.none => false
  | some s =>
    let collected := autofillDefaults s.collected_data
    required_fields.all (fun f =>
      match dictGet collected f with
      | some v => pyTruthy v
      | Option.none => false)

/-- Models ConversationManager.determine_next_action: fixed priority over key
presence (not truthiness) in the collected data. -/
def determine_next_action (m : Manager) (sid : String) : String :=
  match mgrGet m sid with
  | Option.none => "ask_merchant"
  | some s =>
    let c := s.collected_data
    if !dictHas c "merchant_id" then "ask_merchant"
    else if !dictHas c "report_type" then "ask_report_type"
    else if !dictHas c "status_filter" then "ask_status"
    else if !dictHas c "output_format" then "ask_format"
    else if !dictHas c "cron_schedule" then "ask_schedule"
    else if !dictHas c "email_recipients" then "ask_recipients"
    else "confirm"

/-! ## CronConverter (cron_converter.py) -/

/-- Python str.strip on ASCII whitespace. -/
def stripChars (l : List Char) : List Char :=
  ((l.dropWhile pyIsSpace).reverse.dropWhile pyIsSpace).reverse

def pyStrip (s : String) : String :=
  String.mk (stripChars s.toList)

/-- Python str.split with no separator: whitespace-run splitting discarding
empty pieces. The first argument accumulates the current word reversed. -/
def splitWsAux : List Char → List Char → List (List Char)
  | acc, [] => if acc.isEmpty then [] else [acc.reverse]
  | acc, c :: cs =>
    if pyIsSpace c then
      if acc.isEmpty then splitWsAux [] cs else acc.reverse :: splitWsAux [] cs
    else splitWsAux (c :: acc) cs

def pySplitWs (s : String) : List String :=
  (splitWsAux [] s.toList).map String.mk

/-- Python str.zfill (zeros go after a leading sign). -/
def zfill (s : String) (width : Nat) : String :=
  let l := s.toList
  if width ≤ l.length then s
  else
    match l with
    | [] => String.mk (List.replicate width '0')
    | c :: rest =>
      if c == '+' || c == '-' then
        String.mk (c :: (List.replicate (width - l.length) '0' ++ rest))
      else String.mk (List.replicate (width - l.length) '0' ++ l)

/-- Numeric value of a digit list. -/
def digitsVal (l : List Char) : Nat :=
  l.foldl (fun a c => a * 10 + (c.toNat - '0'.toNat)) 0

/-- Python int() on a string: strip, optional sign, decimal digits; anything
else raises, modelled by Option.none. (Underscore digit grouping of Python
literals never occurs in the inputs handled here and is not modelled.) -/
def pyIntOpt (s : String) : Option Int :=
  match stripChars s.toList with
  | [] => Option.none
  | c :: rest =>
    if c == '-' then
      if !rest.isEmpty && rest.all (fun c => c.isDigit) then
        some (-(digitsVal rest : Int))
      else Option.none
    else if c == '+' then
      if !rest.isEmpty && rest.all (fun c => c.isDigit) then
        some (digitsVal rest : Int)
      else Option.none
    else
      if (c :: rest).all (fun c => c.isDigit) then
        some (digitsVal (c :: rest) : Int)
      else Option.none

def lookupStr (m : List (String × String)) (k : String) : Option String :=
  match m with
  | [] => Option.none
  | (k', v) :: t => if k' == k then some v else lookupStr t k

def days_id : List (String × String) :=
  [("0", "Minggu"), ("1", "Senin"), ("2", "Selasa"), ("3", "Rabu"),
   ("4", "Kamis"), ("5", "Jumat"), ("6", "Sabtu")]

def days_en : List (String × String) :=
  [("0", "Sunday"), ("1", "Monday"), ("2", "Tuesday"), ("3", "Wednesday"),
   ("4", "Thursday"), ("5", "Friday"), ("6", "Saturday")]

def months_id : List (String × String) :=
  [("1", "Januari"), ("2", "Februari"), ("3", "Maret"), ("4", "April"),
   ("5", "Mei"), ("6", "Juni"), ("7", "Juli"), ("8", "Agustus"),
   ("9", "September"), ("10", "Oktober"), ("11", "November"), ("12", "Desember")]

def months_en : List (String × String) :=
  [("1", "January"), ("2", "February"), ("3", "March"), ("4", "April"),
   ("5", "May"), ("6", "June"), ("7", "July"), ("8", "August"),
   ("9", "September"), ("10", "October"), ("11", "November"), ("12", "December")]

/-- Models CronConverter._ordinal; Option.none stands for the ValueError the
int conversion raises on non-numeric input. -/
def pyOrdinal (day : String) : Option String :=
  match pyIntOpt day with
  | Option.none => Option.none
  | some n =>
    let m100 := Int.emod n 100
    let suffix :=
      if 10 ≤ m100 ∧ m100 ≤ 20 then "th"
      else
        let m10 := Int.emod n 10
        if m10 == 1 then "st" else if m10 == 2 then "nd"
        else if m10 == 3 then "rd" else "th"
    some (toString n ++ suffix)

/-- Models CronConverter._to_readable_id (total: it raises nothing). -/
def to_readable_id (_minute _hour day month weekday time_str : String) : String :=
  if weekday != "*" then
    "Setiap hari " ++ (lookupStr days_id weekday).getD ("hari ke-" ++ weekday) ++
      " jam " ++ time_str
  else if day != "*" then
    if month != "*" then
      "Setiap tanggal " ++ day ++ " " ++
        (lookupStr months_id month).getD ("bulan ke-" ++ month) ++
        " jam " ++ time_str
    else "Setiap tanggal " ++ day ++ " jam " ++ time_str
  else if month != "*" then
    "Setiap bulan " ++ (lookupStr months_id month).getD ("bulan ke-" ++ month) ++
      " jam " ++ time_str
  else "Setiap hari jam " ++ time_str

/-- Models CronConverter._to_readable_en; Option.none propagates the ordinal
conversion failure. -/
def to_readable_en (_minute _hour day month weekday time_str : String) :
    Option String :=
  if weekday != "*" then
    some ("Every " ++ (lookupStr days_en weekday).getD ("day " ++ weekday) ++
      " at " ++ time_str)
  else if day != "*" then
    match pyOrdinal day with
    | Option.none => Option.none
    | some od =>
      if month != "*" then
        some ("Every " ++ (lookupStr months_en month).getD ("month " ++ month) ++
          " " ++ od ++ " at " ++ time_str)
      else some ("Every " ++ od ++ " of the month at " ++ time_str)
  else if month != "*" then
    some ("Every " ++ (lookupStr months_en month).getD ("month " ++ month) ++
      " at " ++ time_str)
  else some ("Every day at " ++ time_str)

def isStrVal : Value → Bool
  | .str _ => true
  | _ => false

/-- Models CronConverter.to_readable over dynamically typed input; Option.none
stands for a raised exception, some v for a returned value. -/
def to_readable (cron_expr : Value) (language : String) : Option Value :=
  if !pyTruthy cron_expr || !isStrVal cron_expr then some cron_expr
  else
    match cron_expr with
    | .str s =>
      match pySplitWs (pyStrip s) with
      | [minute, hour, day, month, weekday] =>
        let time_str := zfill hour 2 ++ ":" ++ zfill minute 2
        if language == "id" then
          some (Value.str (to_readable_id minute hour day month weekday time_str))
        else
          (to_readable_en minute hour day month weekday time_str).map Value.str
      | _ => some cron_expr
    | _ => some cron_expr

/-! ## VectorSearchManager (vector_search.py)

The MongoDB collection of conversations is modelled by a list of documents
plus an id counter; float arithmetic is modelled over the reals, with the
float exponent one half modelled by Real.sqrt (its arguments here are sums of
squares, hence nonnegative). The embedding service is an external call and is
passed in as a function. The primary Atlas search path delegates the work to
an external index; the in-repo fallback scan (manual cosine similarity) is
used as the model of the search. The similarity threshold is the documented
default 0.85 of the unset environment variable. -/

/-- One stored conversation document. The top-level success flag is absent on
insertion (store_conversation only writes the nested flag) and is an Option,
set later by update_conversation_status; the Mongo descending sort orders
true before false before missing. -/
structure ConvoDoc where
  id : Nat
  session_id : String
  user_message : String
  collected_data : Dict
  schedule_id : Option Int
  conversation_is_successful : Bool
  is_successful : Option Bool
  embedding : List ℝ
  created_at : Nat

structure CacheState where
  records : List ConvoDoc
  next_id : Nat

def similarity_threshold : ℝ := 0.85

/-- Models VectorSearchManager._cosine_similarity. -/
noncomputable def cosine_similarity (vec1 vec2 : List ℝ) : ℝ :=
  if vec1.length ≠ vec2.length then 0
  else
    let dot_product := ((vec1.zip vec2).map (fun p => p.1 * p.2)).sum
    let magnitude1 := Real.sqrt ((vec1.map (fun a => a * a)).sum)
    let magnitude2 := Real.sqrt ((vec2.map (fun b => b * b)).sum)
    if magnitude1 = 0 ∨ magnitude2 = 0 then 0
    else max 0 (min 1 (dot_product / (magnitude1 * magnitude2)))

/-- Sort key of the Mongo descending sort on the top-level success flag. -/
def successKey : Option Bool → Nat
  | some true => 2
  | some false => 1
  | Option.none => 0

/-- Candidate-fetch order: success flag descending, then creation time
descending (the order of the find query of the fallback). -/
def fetchLe (a b : ConvoDoc) : Prop :=
  successKey b.is_successful < successKey a.is_successful ∨
  (successKey a.is_successful = successKey b.is_successful ∧
    b.created_at ≤ a.created_at)

instance (a b : ConvoDoc) : Decidable (fetchLe a b) := by
  unfold fetchLe; infer_instance

/-- Result order of the fallback: similarity descending only. -/
def simLe (a b : ConvoDoc × ℝ) : Prop := b.2 ≤ a.2

noncomputable instance (a b : ConvoDoc × ℝ) : Decidable (simLe a b) := by
  unfold simLe; infer_instance

instance : IsTotal (ConvoDoc × ℝ) simLe :=
  ⟨fun a b => le_total b.2 a.2⟩

instance : IsTrans (ConvoDoc × ℝ) simLe :=
  ⟨fun _ _ _ h1 h2 => le_trans h2 h1⟩

/-- The loop body of the fallback scan: skip candidates without an embedding,
score the rest, keep a result at or above the threshold. -/
noncomputable def scanScore (query_embedding : List ℝ) (convo : ConvoDoc) :
    Option (ConvoDoc × ℝ) :=
  if convo.embedding.isEmpty then Option.none
  else
    let similarity := cosine_similarity query_embedding convo.embedding
    if similarity_threshold ≤ similarity then some (convo, similarity)
    else Option.none

/-- Models VectorSearchManager._fallback_search: fetch up to 100 candidates
(success first, newest first), score those with a nonempty embedding, keep the
scores at or above the threshold, sort by similarity descending, truncate. -/
noncomputable def fallback_search (query_embedding : List ℝ)
    (docs : List ConvoDoc) (top_k : Nat) : List (ConvoDoc × ℝ) :=
  let all_convos := (List.insertionSort fetchLe docs).take 100
  if all_convos.isEmpty then []
  else
    let results := all_convos.filterMap (scanScore query_embedding)
    (List.insertionSort simLe results).take top_k

/-- Models VectorSearchManager.search_similar_conversations: empty query
embedding short-circuits to no results; the search itself is modelled by the
fallback scan (the Atlas pipeline is an external service). -/
noncomputable def search_similar_conversations (emb : String → List ℝ)
    (docs : List ConvoDoc) (user_message : String) (top_k : Nat) :
    List (ConvoDoc × ℝ) :=
  let query_embedding := emb user_message
  if query_embedding.isEmpty then [] else fallback_search query_embedding docs top_k

/-- Python falsiness of the optional schedule id (None and 0 are falsy). -/
def pyFalsySched : Option Int → Bool
  | Option.none => true
  | some n => n == 0

/-- Document insertion of store_conversation (the field-pattern collection is
not modelled; it is a different collection and never read by the claims). -/
noncomputable def insertConvo (st : CacheState) (session_id user_message : String)
    (collected_data : Dict) (schedule_id : Option Int) (is_successful : Bool)
    (embedding : List ℝ) (now : Nat) : CacheState × String :=
  ({ records := st.records ++
      [{ id := st.next_id, session_id := session_id,
         user_message := user_message, collected_data := collected_data,
         schedule_id := schedule_id,
         conversation_is_successful := is_successful,
         is_successful := Option.none, embedding := embedding,
         created_at := now }],
     next_id := st.next_id + 1 },
   toString st.next_id)

/-- Models VectorSearchManager.store_conversation: quality gate, then
near-duplicate check against the top search result, then insertion. -/
noncomputable def store_conversation (emb : String → List ℝ) (st : CacheState)
    (session_id user_message : String) (collected_data : Dict)
    (schedule_id : Option Int) (is_successful : Bool) (now : Nat) :
    CacheState × String :=
  if !is_successful || pyFalsySched schedule_id then (st, "")
  else
    let embedding := emb user_message
    let existing := search_similar_conversations emb st.records user_message 1
    match existing with
    | (d, s) :: _ =>
      if (0.98 : ℝ) < s then (st, toString d.id)
      else insertConvo st session_id user_message collected_data schedule_id
        is_successful embedding now
    | [] => insertConvo st session_id user_message collected_data schedule_id
        is_successful embedding now

/-! ## Concrete fixtures used by the counterexamples and witnesses -/

def c2_session : Session :=
  { session_id := "s1", user_id := "user@finpay.com", language := "id",
    conversation_history := [],
    collected_data :=
      [("merchant_id", Value.str "FINPAY770"),
       ("output_format", Value.str "xlsx"),
       ("cron_schedule", Value.str "0 8 * * *"),
       ("email_recipients", Value.strList ["finance@finpay.com"])],
    missing_fields := ["report_type", "status_filter"],
    next_action := "ask_report_type", is_complete := false }

def c2_mgr : Manager := [("s1", c2_session)]

def c6_session : Session :=
  { session_id := "s1", user_id := "user@finpay.com", language := "id",
    conversation_history := [], collected_data := [],
    missing_fields := all_fields, next_action := "ask_merchant",
    is_complete := false }

def c6_mgr : Manager := [("s1", c6_session)]

/-- Unsuccessful record whose embedding is the first unit vector. -/
noncomputable def doc_near : ConvoDoc :=
  { id := 1, session_id := "a", user_message := "buatkan report",
    collected_data := [], schedule_id := some 11,
    conversation_is_successful := true, is_successful := some false,
    embedding := [1, 0], created_at := 5 }

/-- Successful record at cosine similarity 24/25 to the first unit vector. -/
noncomputable def doc_far : ConvoDoc :=
  { id := 2, session_id := "b", user_message := "buat laporan",
    collected_data := [], schedule_id := some 12,
    conversation_is_successful := true, is_successful := some true,
    embedding := [24 / 25, 7 / 25], created_at := 3 }

/-- Old unsuccessful record identical to the query embedding. -/
noncomputable def doc_dup : ConvoDoc :=
  { id := 0, session_id := "old", user_message := "buatkan report",
    collected_data := [], schedule_id := some 10,
    conversation_is_successful := true, is_successful := some false,
    embedding := [1, 0], created_at := 0 }

/-- Fresher successful record at cosine similarity 3/5 to the query (below
the search threshold). -/
noncomputable def doc_fill : ConvoDoc :=
  { id := 3, session_id := "new", user_message := "lain",
    collected_data := [], schedule_id := some 13,
    conversation_is_successful := true, is_successful := some true,
    embedding := [3 / 5, 4 / 5], created_at := 1 }

/-- A store of 101 records: the high-similarity duplicate is sorted after the
100 successful fresher records by the candidate fetch. -/
noncomputable def st_full : CacheState :=
  { records := doc_dup :: List.replicate 100 doc_fill, next_id := 101 }

/-- A store holding only the duplicate record. -/
noncomputable def st_one : CacheState :=
  { records := [doc_dup], next_id := 1 }

/-- Embedding service fixture: every message embeds to the first unit
vector. -/
noncomputable def emb_unit : String → List ℝ := fun _ => [1, 0]

/-- Wildcard schedule field. -/
def isWildFieldB (s : String) : Bool := s == "*"

/-- Literal nonnegative-integer schedule field. -/
def isLitFieldB (s : String) : Bool :=
  !s.toList.isEmpty && s.toList.all (fun c => c.isDigit)

/-- Step schedule field star slash digits. -/
def isStepFieldB (s : String) : Bool :=
  match s.toList with
  | '*' :: '/' :: t => !t.isEmpty && t.all (fun c => c.isDigit)
  | _ => false

/-- One field of the schedule-expression grammar of the data model. -/
def isCronFieldB (s : String) : Bool :=
  isWildFieldB s || isLitFieldB s || isStepFieldB s

/-- Last binding of a key in a delta list (later entries shadow earlier
ones inside one update call). -/
def lastVal : Dict → String → Option Value
  | [], _ => Option.none
  | (k', v) :: t, k =>
    (lastVal t k).orElse (fun _ => if k' == k then some v else Option.none)

/-! # Theorems

General-purpose lemmas first, then one theorem (with counterexample and
witness where applicable) per specification claim. -/

theorem append_ne_empty (a b : String) (h : a ≠ "") : a ++ b ≠ "" := by
  intro hc
  apply h
  have hd : (a ++ b).data = a.data ++ b.data := String.data_append a b
  rw [hc] at hd
  have ha : a.data = [] := (List.append_eq_nil.mp hd.symm).1
  cases a
  simp_all

theorem mgrGet_mgrSet (m : Manager) (sid : String) (s : Session) :
    mgrGet (mgrSet m sid s) sid = some s := by
  induction m with
  | nil => simp [mgrGet, mgrSet]
  | cons p t ih =>
    by_cases h : p.1 == sid
    · simp [mgrGet, mgrSet, h]
    · simpa [mgrGet, mgrSet, h] using ih

theorem dictGet_dictSet (d : Dict) (k : String) (v : Value) (k' : String) :
    dictGet (dictSet d k v) k' = if k == k' then some v else dictGet d k' := by
  induction d with
  | nil => simp [dictGet, dictSet]
  | cons p t ih =>
    by_cases h : p.1 == k
    · have hpk : p.1 = k := by simpa using h
      by_cases h2 : k == k' <;> simp [dictGet, dictSet, h, hpk, h2]
    · by_cases h2 : p.1 == k'
      · have hpk' : p.1 = k' := by simpa using h2
        have hkk : ¬(k = k') := by
          intro he
          apply h
          simp [hpk', he]
        simp [dictGet, dictSet, h, h2, hkk]
      · simp [dictGet, dictSet, h, h2, ih]

theorem dictGet_dictUpdate (d : Dict) (delta : Dict) (k : String) :
    dictGet (dictUpdate d delta) k =
      (lastVal delta k).orElse (fun _ => dictGet d k) := by
  induction delta generalizing d with
  | nil => simp [dictUpdate, lastVal, Option.orElse]
  | cons p t ih =>
    have step : dictUpdate d (p :: t) = dictUpdate (dictSet d p.1 p.2) t := by
      simp [dictUpdate]
    rw [step, ih, dictGet_dictSet]
    cases hlv : lastVal t k with
    | some v => simp [lastVal, hlv, Option.orElse]
    | none =>
      by_cases h : p.1 == k <;> simp [lastVal, hlv, h, Option.orElse]

/-- C1: if a merchant id is extracted and the supplied allow-list does not
contain it, parse_message returns exactly the authorization-error data (the
offending id uppercased and the allow-list) and no other extracted field. -/
theorem parse_message_auth_short_circuit (message : String)
    (allowed : List String) (mid : String)
    (h1 : extract_merchant_id message = some mid)
    (h2 : allowed.contains mid = false) :
    parse_message message (some allowed) =
      [("_merchant_error", Value.str mid),
       ("_allowed_merchants", Value.strList allowed)] := by
  have h2' : ¬(mid ∈ allowed) := by simpa using h2
  simp [parse_message, h1, h2']

/-- C1 witness: the spec example mid finpay770 against allow-list
MERCHANT001. -/
theorem parse_message_auth_short_circuit_witness :
    extract_merchant_id "mid finpay770" = some "FINPAY770" ∧
    parse_message "mid finpay770" (some ["MERCHANT001"]) =
      [("_merchant_error", Value.str "FINPAY770"),
       ("_allowed_merchants", Value.strList ["MERCHANT001"])] :=
  ⟨by decide,
   parse_message_auth_short_circuit "mid finpay770" ["MERCHANT001"] "FINPAY770"
     (by decide) (by decide)⟩

/-- C3 counterexample: the message senin setiap hari jam 8 contains the
weekday keyword senin, no pattern of priorities 1 to 4 matches it, and the
generic daily-hour rule of priority 5 parses it into the plain daily
expression, contradicting the claim that the daily-hour rule fires only when
no weekday keyword occurs in the message. -/
theorem extract_cron_daily_despite_weekday_keyword :
    hasDayKeyword "senin setiap hari jam 8" = true ∧
    stage_direct_cron "senin setiap hari jam 8" = Option.none ∧
    stage_every_minutes "senin setiap hari jam 8" = Option.none ∧
    stage_every_hours "senin setiap hari jam 8" = Option.none ∧
    stage_day_patterns "senin setiap hari jam 8" = Option.none ∧
    stage_daily "senin setiap hari jam 8" = some "0 8 * * *" ∧
    extract_cron "senin setiap hari jam 8" = some "0 8 * * *" := by
  refine ⟨by decide, by decide, by decide, by decide, by decide, by decide, ?_⟩
  decide

/-- C3 amended: the no-weekday-keyword guard protects only the priority-7
day-part fallback; when a weekday keyword occurs anywhere in the message, the
extraction equals the cascade of priorities 1 to 6 (so the daily-hour rule of
priority 5 is still reachable). -/
theorem extract_cron_weekday_guard (message : String)
    (h : hasDayKeyword message = true) :
    extract_cron message =
      (stage_direct_cron message).orElse (fun _ =>
      (stage_every_minutes message).orElse (fun _ =>
      (stage_every_hours message).orElse (fun _ =>
      (stage_day_patterns message).orElse (fun _ =>
      (stage_daily message).orElse (fun _ =>
      stage_monthly message))))) := by
  have hnone : stage_day_part message = Option.none := by
    simp [stage_day_part, h]
  simp only [extract_cron, hnone, Option.orElse_none']

/-- C3 witness at the counterexample message. -/
theorem extract_cron_weekday_guard_witness :
    hasDayKeyword "senin setiap hari jam 8" = true ∧
    extract_cron "senin setiap hari jam 8" =
      (stage_direct_cron "senin setiap hari jam 8").orElse (fun _ =>
      (stage_every_minutes "senin setiap hari jam 8").orElse (fun _ =>
      (stage_every_hours "senin setiap hari jam 8").orElse (fun _ =>
      (stage_day_patterns "senin setiap hari jam 8").orElse (fun _ =>
      (stage_daily "senin setiap hari jam 8").orElse (fun _ =>
      stage_monthly "senin setiap hari jam 8"))))) :=
  ⟨by decide, extract_cron_weekday_guard "senin setiap hari jam 8" (by decide)⟩

/-- C4 counterexample: for the message buat laporan no schedule expression is
found, and the parsed delta carries no timezone key at all, contradicting the
claim that the locale default timezone is attached even without an
expression. -/
theorem parse_message_no_timezone_without_cron :
    extract_cron "buat laporan" = Option.none ∧
    extract_schedule "buat laporan" = Option.none ∧
    dictGet (parse_message "buat laporan" Option.none) "timezone" =
      Option.none := by
  refine ⟨by decide, by decide, ?_⟩
  decide

/-- C4 amended: the schedule extractor contributes nothing to the delta when
no cron expression is found; the default timezone is attached only together
with an extracted expression. -/
theorem extract_schedule_none_of_no_cron (message : String)
    (h : extract_cron message = Option.none) :
    extract_schedule message = Option.none := by
  simp [extract_schedule, h]

/-- C4 witness at a concrete message without a schedule phrase. -/
theorem extract_schedule_none_of_no_cron_witness :
    extract_cron "halo" = Option.none ∧
    extract_schedule "halo" = Option.none :=
  ⟨by decide, extract_schedule_none_of_no_cron "halo" (by decide)⟩

/-- C7: the quality gate of store_conversation: a false success flag or an
absent or zero outcome identifier inserts nothing and returns the empty
identifier. -/
theorem store_conversation_quality_gate (emb : String → List ℝ)
    (st : CacheState) (session_id user_message : String)
    (collected_data : Dict) (schedule_id : Option Int) (is_successful : Bool)
    (now : Nat)
    (h : is_successful = false ∨ schedule_id = Option.none ∨
      schedule_id = some 0) :
    store_conversation emb st session_id user_message collected_data
      schedule_id is_successful now = (st, "") := by
  rcases h with h | h | h <;>
    simp [store_conversation, pyFalsySched, h]

/-- C7 witness: a failed conversation is not stored. -/
theorem store_conversation_quality_gate_witness :
    store_conversation emb_unit st_one "sess" "pesan" [] Option.none false 7 =
      (st_one, "") :=
  store_conversation_quality_gate emb_unit st_one "sess" "pesan" []
    Option.none false 7 (Or.inl rfl)

/-- C10: to_readable returns non-string, empty, and non-five-field inputs
unchanged, raising nothing. -/
theorem to_readable_malformed_unchanged (v : Value) (lang : String)
    (h : match v with
      | Value.str s => s = "" ∨ (pySplitWs (pyStrip s)).length ≠ 5
      | _ => True) :
    to_readable v lang = some v := by
  cases v with
  | str s =>
    rcases h with h | h
    · subst h
      simp [to_readable, pyTruthy]
    · by_cases he : s = ""
      · subst he
        simp [to_readable, pyTruthy]
      · have hgate : (!pyTruthy (Value.str s) || !isStrVal (Value.str s)) = false := by
          simp [pyTruthy, isStrVal, he]
        unfold to_readable
        rw [hgate]
        simp only [Bool.false_eq_true, if_false]
        rcases hp : pySplitWs (pyStrip s) with _ | ⟨a, _ | ⟨b, _ | ⟨c, _ | ⟨d, _ | ⟨e, _ | ⟨f, rest⟩⟩⟩⟩⟩⟩ <;>
          first
            | rfl
            | exact absurd (by simp [hp]) h
  | strList l => simp [to_readable, isStrVal]
  | int n => simp [to_readable, isStrVal]
  | bool b => simp [to_readable, isStrVal]
  | none => simp [to_readable, isStrVal]

/-- C10 witness: a four-field expression is returned unchanged. -/
theorem to_readable_malformed_unchanged_witness :
    to_readable (Value.str "0 8 * *") "en" = some (Value.str "0 8 * *") :=
  to_readable_malformed_unchanged (Value.str "0 8 * *") "en"
    (Or.inr (by decide))

/-- C2 counterexample: a session holding truthy values for the four
hard-required fields but no report type is complete according to
check_completeness (which autofills the defaults), yet determine_next_action
asks for the report type instead of returning confirm. -/
theorem complete_but_not_confirm :
    check_completeness c2_mgr "s1" = true ∧
    determine_next_action c2_mgr "s1" = "ask_report_type" ∧
    determine_next_action c2_mgr "s1" ≠ "confirm" := by
  refine ⟨by decide, by decide, ?_⟩
  decide

/-- C2 amended: determine_next_action returns confirm exactly when the
session exists and every schema key is present in the collected data
(presence, not truthiness); this differs from check_completeness, which
autofills report type, status filter and timezone and tests truthiness of the
hard-required fields only. -/
theorem determine_next_action_confirm_iff (m : Manager) (sid : String) :
    determine_next_action m sid = "confirm" ↔
      ∃ s, mgrGet m sid = some s ∧
        all_fields.all (fun f => dictHas s.collected_data f) = true := by
  cases hg : mgrGet m sid with
  | none =>
    simp only [determine_next_action, hg]
    constructor
    · intro h
      exact absurd h (by decide)
    · rintro ⟨s, hs, -⟩
      exact Option.noConfusion hs
  | some s =>
    simp only [determine_next_action, hg, Option.some.injEq]
    have hr : (∃ s', s = s' ∧
        all_fields.all (fun f => dictHas s'.collected_data f) = true) ↔
        all_fields.all (fun f => dictHas s.collected_data f) = true := by
      constructor
      · rintro ⟨s', rfl, hs'⟩
        exact hs'
      · intro hall
        exact ⟨s, rfl, hall⟩
    rw [hr]
    simp only [all_fields, List.all_cons, List.all_nil, Bool.and_true]
    by_cases h1 : dictHas s.collected_data "merchant_id" <;>
    by_cases h2 : dictHas s.collected_data "report_type" <;>
    by_cases h3 : dictHas s.collected_data "status_filter" <;>
    by_cases h4 : dictHas s.collected_data "output_format" <;>
    by_cases h5 : dictHas s.collected_data "cron_schedule" <;>
    by_cases h6 : dictHas s.collected_data "email_recipients" <;>
      simp [h1, h2, h3, h4, h5, h6]

/-- C6: applying the same slot delta twice to an existing session leaves the
missing-field list exactly as after applying it once. -/
theorem update_session_idempotent_missing (m : Manager) (sid : String)
    (delta : Dict) (s : Session) (h : mgrGet m sid = some s) :
    (mgrGet (update_session
        (update_session m sid (some delta) Option.none Option.none Option.none).2
        sid (some delta) Option.none Option.none Option.none).2 sid).map
      Session.missing_fields =
    (mgrGet (update_session m sid (some delta) Option.none Option.none
        Option.none).2 sid).map Session.missing_fields := by
  by_cases hd : delta.isEmpty
  · have e1 : update_session m sid (some delta) Option.none Option.none
        Option.none = (true, mgrSet m sid s) := by
      simp [update_session, h, hd]
    rw [e1]
    have hget1 : mgrGet (mgrSet m sid s) sid = some s := mgrGet_mgrSet m sid s
    have e2 : update_session (mgrSet m sid s) sid (some delta) Option.none
        Option.none Option.none = (true, mgrSet (mgrSet m sid s) sid s) := by
      simp [update_session, hget1, hd]
    rw [e2, mgrGet_mgrSet, hget1]
  · have key : ∀ k, dictGet (dictUpdate (dictUpdate s.collected_data delta) delta) k =
        dictGet (dictUpdate s.collected_data delta) k := by
      intro k
      simp only [dictGet_dictUpdate]
      cases lastVal delta k <;> simp [Option.orElse]
    have cm : compute_missing (dictUpdate (dictUpdate s.collected_data delta) delta) =
        compute_missing (dictUpdate s.collected_data delta) := by
      unfold compute_missing
      apply List.filter_congr
      intro f _
      rw [key]
    have e1 : update_session m sid (some delta) Option.none Option.none
        Option.none = (true, mgrSet m sid
          { s with collected_data := dictUpdate s.collected_data delta,
                   missing_fields := compute_missing (dictUpdate s.collected_data delta) }) := by
      simp [update_session, h, hd]
    rw [e1]
    have hget1 := mgrGet_mgrSet m sid
      { s with collected_data := dictUpdate s.collected_data delta,
               missing_fields := compute_missing (dictUpdate s.collected_data delta) }
    have e2 : update_session (mgrSet m sid
        { s with collected_data := dictUpdate s.collected_data delta,
                 missing_fields := compute_missing (dictUpdate s.collected_data delta) })
        sid (some delta) Option.none Option.none Option.none =
        (true, mgrSet (mgrSet m sid
          { s with collected_data := dictUpdate s.collected_data delta,
                   missing_fields := compute_missing (dictUpdate s.collected_data delta) })
          sid
          { s with collected_data := dictUpdate (dictUpdate s.collected_data delta) delta,
                   missing_fields := compute_missing (dictUpdate (dictUpdate s.collected_data delta) delta) }) := by
      simp [update_session, hget1, hd]
    rw [e2, mgrGet_mgrSet, hget1]
    simp [cm]

/-- C6 witness at a concrete session and delta. -/
theorem update_session_idempotent_missing_witness :
    (mgrGet (update_session
        (update_session c6_mgr "s1" (some [("merchant_id", Value.str "FINPAY770")])
          Option.none Option.none Option.none).2
        "s1" (some [("merchant_id", Value.str "FINPAY770")])
        Option.none Option.none Option.none).2 "s1").map
      Session.missing_fields =
    (mgrGet (update_session c6_mgr "s1"
        (some [("merchant_id", Value.str "FINPAY770")])
        Option.none Option.none Option.none).2 "s1").map
      Session.missing_fields :=
  update_session_idempotent_missing c6_mgr "s1"
    [("merchant_id", Value.str "FINPAY770")] c6_session (by decide)


/-- A string append with nonempty right part is nonempty. -/
theorem append_ne_empty_right (a b : String) (h : b ≠ "") : a ++ b ≠ "" := by
  intro hc
  apply h
  have hd : (a ++ b).data = a.data ++ b.data := String.data_append a b
  rw [hc] at hd
  have hb : b.data = [] := (List.append_eq_nil.mp hd.symm).2
  cases b
  simp_all

/-- Digits are not whitespace. -/
theorem isDigit_not_space (c : Char) (h : c.isDigit = true) :
    pyIsSpace c = false := by
  cases hps : pyIsSpace c
  · rfl
  · exfalso
    simp only [pyIsSpace, Bool.or_eq_true, beq_iff_eq] at hps
    rcases hps with ((((rfl | rfl) | rfl) | rfl) | rfl) | rfl <;> exact absurd h (by decide)

/-- dropWhile is the identity when no element satisfies the predicate. -/
theorem dropWhile_all_false {p : Char → Bool} {l : List Char}
    (h : ∀ c ∈ l, p c = false) : l.dropWhile p = l := by
  cases l with
  | nil => rfl
  | cons c t => simp [List.dropWhile, h c (List.mem_cons_self c t)]

/-- Stripping whitespace leaves an all-digit list unchanged. -/
theorem stripChars_all_digits (l : List Char)
    (h : l.all (fun c => c.isDigit) = true) : stripChars l = l := by
  have hnb : ∀ c ∈ l, pyIsSpace c = false := by
    intro c hc
    exact isDigit_not_space c (by simpa using (List.all_eq_true.mp h c hc))
  unfold stripChars
  rw [dropWhile_all_false hnb]
  rw [dropWhile_all_false (fun c hc => hnb c (List.mem_reverse.mp hc))]
  exact List.reverse_reverse l

/-- The int conversion succeeds on a literal digit field. -/
theorem pyIntOpt_digits (s : String) (h : isLitFieldB s = true) :
    pyIntOpt s = some (digitsVal s.toList : Int) := by
  have hall : s.toList.all (fun c => c.isDigit) = true := by
    simp only [isLitFieldB, Bool.and_eq_true] at h
    exact h.2
  have hne : s.toList ≠ [] := by
    simp only [isLitFieldB, Bool.and_eq_true, Bool.not_eq_true'] at h
    simpa [List.isEmpty_iff] using h.1
  unfold pyIntOpt
  rw [stripChars_all_digits s.toList hall]
  cases hl : s.toList with
  | nil => exact absurd hl hne
  | cons c t =>
    rw [hl] at hall
    have hcd : c.isDigit = true := by
      simp only [List.all_cons, Bool.and_eq_true] at hall
      exact hall.1
    have hcm : (c == '-') = false := by
      cases hq : c == '-'
      · rfl
      · have : c = '-' := by simpa using hq
        subst this
        exact absurd hcd (by decide)
    have hcp : (c == '+') = false := by
      cases hq : c == '+'
      · rfl
      · have : c = '+' := by simpa using hq
        subst this
        exact absurd hcd (by decide)
    simp [hcm, hcp, hall]

/-- C5 amended: over five-field expressions whose fields are wildcard,
literal, or step, to_readable never raises and returns non-empty text in
locale id; in locale en it does so except in the one raising case the
counterexample exhibits: a step day-of-month field together with a wildcard
weekday (the ordinal int conversion fails there). -/
theorem to_readable_grammar_total (s mi hr d mo w : String)
    (hs : pySplitWs (pyStrip s) = [mi, hr, d, mo, w])
    (_h1 : isCronFieldB mi = true) (_h2 : isCronFieldB hr = true)
    (h3 : isCronFieldB d = true) (_h4 : isCronFieldB mo = true)
    (_h5 : isCronFieldB w = true) :
    (∃ r : String, to_readable (Value.str s) "id" = some (Value.str r) ∧ r ≠ "") ∧
    (¬(w = "*" ∧ isStepFieldB d = true) →
      ∃ r : String, to_readable (Value.str s) "en" = some (Value.str r) ∧ r ≠ "") := by
  have he : s ≠ "" := by
    intro he
    subst he
    have h0 : pySplitWs (pyStrip "") = ([] : List String) := by decide
    rw [h0] at hs
    exact List.noConfusion hs
  have hgate : (!pyTruthy (Value.str s) || !isStrVal (Value.str s)) = false := by
    simp [pyTruthy, isStrVal, he]
  have hred : ∀ lang : String, to_readable (Value.str s) lang =
      (if lang == "id" then
        some (Value.str (to_readable_id mi hr d mo w (zfill hr 2 ++ ":" ++ zfill mi 2)))
       else
        (to_readable_en mi hr d mo w (zfill hr 2 ++ ":" ++ zfill mi 2)).map Value.str) := by
    intro lang
    unfold to_readable
    rw [hgate]
    simp only [Bool.false_eq_true, if_false]
    rw [hs]
  constructor
  · rw [hred "id"]
    simp only [beq_self_eq_true, if_true]
    refine ⟨_, rfl, ?_⟩
    unfold to_readable_id
    split_ifs <;> ((repeat' apply append_ne_empty); decide)
  · intro hex
    rw [hred "en"]
    have hl : (("en" : String) == "id") = false := by decide
    rw [hl]
    simp only [Bool.false_eq_true, if_false]
    by_cases hw : w = "*"
    · have hdstep : isStepFieldB d = false := by
        cases hds : isStepFieldB d
        · rfl
        · exact absurd ⟨hw, hds⟩ hex
      by_cases hdw : d = "*"
      · subst hw
        subst hdw
        unfold to_readable_en
        simp only [bne_self_eq_false, Bool.false_eq_true, if_false]
        by_cases hmo : mo = "*"
        · subst hmo
          simp only [bne_self_eq_false, Bool.false_eq_true, if_false]
          refine ⟨_, rfl, ?_⟩
          apply append_ne_empty
          decide
        · have hmo' : (mo != "*") = true := by simp [bne, hmo]
          rw [hmo']
          simp only [if_true, Option.map_some']
          refine ⟨_, rfl, ?_⟩
          (repeat' apply append_ne_empty); decide
      · have hlit : isLitFieldB d = true := by
          have hwild : isWildFieldB d = false := by
            simp [isWildFieldB, hdw]
          simp only [isCronFieldB, hwild, hdstep, Bool.or_false,
            Bool.false_or] at h3
          exact h3
        have hord : pyOrdinal d = some (toString (digitsVal d.toList : Int) ++
            (if 10 ≤ Int.emod (digitsVal d.toList : Int) 100 ∧
                Int.emod (digitsVal d.toList : Int) 100 ≤ 20 then "th"
             else if Int.emod (digitsVal d.toList : Int) 10 == 1 then "st"
             else if Int.emod (digitsVal d.toList : Int) 10 == 2 then "nd"
             else if Int.emod (digitsVal d.toList : Int) 10 == 3 then "rd"
             else "th")) := by
          unfold pyOrdinal
          rw [pyIntOpt_digits d hlit]
        subst hw
        have hd' : (d != "*") = true := by simp [bne, hdw]
        unfold to_readable_en
        simp only [bne_self_eq_false, Bool.false_eq_true, if_false, hd',
          if_true, hord]
        have hsuf : (toString (digitsVal d.toList : Int) ++
            (if 10 ≤ Int.emod (digitsVal d.toList : Int) 100 ∧
                Int.emod (digitsVal d.toList : Int) 100 ≤ 20 then "th"
             else if Int.emod (digitsVal d.toList : Int) 10 == 1 then "st"
             else if Int.emod (digitsVal d.toList : Int) 10 == 2 then "nd"
             else if Int.emod (digitsVal d.toList : Int) 10 == 3 then "rd"
             else "th")) ≠ "" := by
          apply append_ne_empty_right
          split_ifs <;> decide
        by_cases hmo : mo = "*"
        · subst hmo
          simp only [bne_self_eq_false, Bool.false_eq_true, if_false,
            Option.map_some']
          refine ⟨_, rfl, ?_⟩
          (repeat' apply append_ne_empty); decide
        · have hmo' : (mo != "*") = true := by simp [bne, hmo]
          rw [hmo']
          simp only [if_true, Option.map_some']
          refine ⟨_, rfl, ?_⟩
          (repeat' apply append_ne_empty); decide
    · have hw' : (w != "*") = true := by simp [bne, hw]
      unfold to_readable_en
      rw [hw']
      simp only [if_true, Option.map_some']
      refine ⟨_, rfl, ?_⟩
      (repeat' apply append_ne_empty); decide


/-- C5 counterexample: the grammar field star-slash-2 in the day position
with wildcard weekday makes the en rendering raise (the int conversion of
_ordinal fails), contradicting the claim that render never throws on grammar
expressions in both locales. -/
theorem to_readable_en_step_day_raises :
    isCronFieldB "*/2" = true ∧
    to_readable (Value.str "0 8 */2 * *") "en" = Option.none := by
  refine ⟨by decide, ?_⟩
  decide

/-- C5 witness at the expression 0 8 1 * star. -/
theorem to_readable_grammar_total_witness :
    (∃ r : String, to_readable (Value.str "0 8 1 * *") "id" =
      some (Value.str r) ∧ r ≠ "") ∧
    (∃ r : String, to_readable (Value.str "0 8 1 * *") "en" =
      some (Value.str r) ∧ r ≠ "") := by
  have H := to_readable_grammar_total "0 8 1 * *" "0" "8" "1" "*" "*"
    (by decide) (by decide) (by decide) (by decide) (by decide) (by decide)
  exact ⟨H.1, H.2 (by decide)⟩


/-- C9 amended: on the manual cosine-similarity fallback path, every returned
entry scores at or above the configured threshold, the list is sorted by
similarity descending only (the success flag does not participate in the
final ranking), it holds at most k entries, and every entry is a stored
record paired with its cosine similarity to the query. -/
theorem fallback_search_spec (q : List ℝ) (docs : List ConvoDoc) (k : Nat) :
    (∀ p ∈ fallback_search q docs k, similarity_threshold ≤ p.2) ∧
    List.Sorted simLe (fallback_search q docs k) ∧
    (fallback_search q docs k).length ≤ k ∧
    (∀ p ∈ fallback_search q docs k,
      p.1 ∈ docs ∧ p.2 = cosine_similarity q p.1.embedding) := by
  unfold fallback_search
  by_cases h0 : ((List.insertionSort fetchLe docs).take 100).isEmpty
  · simp [h0]
  · simp only [h0, Bool.false_eq_true, if_false]
    set cands := (List.insertionSort fetchLe docs).take 100 with hcands
    have hmem : ∀ p ∈ (List.insertionSort simLe
        (cands.filterMap (scanScore q))).take k,
        p.1 ∈ docs ∧ p.2 = cosine_similarity q p.1.embedding ∧
          similarity_threshold ≤ p.2 := by
      intro p hp
      have hp1 : p ∈ List.insertionSort simLe (cands.filterMap (scanScore q)) :=
        List.take_subset k _ hp
      have hp2 : p ∈ cands.filterMap (scanScore q) :=
        (List.mem_insertionSort simLe).mp hp1
      obtain ⟨a, ha, hfa⟩ := List.mem_filterMap.mp hp2
      have hadocs : a ∈ docs := by
        have h1 : a ∈ List.insertionSort fetchLe docs :=
          List.take_subset 100 _ ha
        exact (List.mem_insertionSort fetchLe).mp h1
      by_cases hemb : a.embedding.isEmpty
      · have hae : a.embedding = [] := by simpa using hemb
        unfold scanScore at hfa
        simp [hae] at hfa
      · by_cases hth : similarity_threshold ≤ cosine_similarity q a.embedding
        · unfold scanScore at hfa
          simp only [hemb, Bool.false_eq_true, if_false, hth, if_true,
            Option.some.injEq] at hfa
          subst hfa
          exact ⟨hadocs, rfl, hth⟩
        · unfold scanScore at hfa
          simp [hemb, hth] at hfa
    refine ⟨fun p hp => (hmem p hp).2.2, ?_, ?_, fun p hp => ⟨(hmem p hp).1, (hmem p hp).2.1⟩⟩
    · exact List.Pairwise.sublist (List.take_sublist k _)
        (List.sorted_insertionSort simLe _)
    · exact List.length_take_le k _

/-- Cosine similarity of the first unit vector with itself. -/
theorem cos_unit_unit : cosine_similarity [1, 0] ([1, 0] : List ℝ) = 1 := by
  unfold cosine_similarity
  simp only [List.zip, List.zipWith, List.map_cons, List.map_nil,
    List.sum_cons, List.sum_nil, List.length_cons, List.length_nil]
  norm_num

/-- Cosine similarity of the first unit vector with the vector 24/25, 7/25. -/
theorem cos_unit_far : cosine_similarity [1, 0] ([24 / 25, 7 / 25] : List ℝ) = 24 / 25 := by
  unfold cosine_similarity
  simp only [List.zip, List.zipWith, List.map_cons, List.map_nil,
    List.sum_cons, List.sum_nil, List.length_cons, List.length_nil]
  norm_num

/-- Scan step at the far fixture record. -/
theorem scan_far : scanScore [1, 0] doc_far = some (doc_far, 24 / 25) := by
  unfold scanScore
  rw [show doc_far.embedding = [24 / 25, 7 / 25] from rfl]
  rw [cos_unit_far]
  rw [if_neg (by simp)]
  rw [if_pos (by norm_num [similarity_threshold])]

/-- Scan step at the near fixture record. -/
theorem scan_near : scanScore [1, 0] doc_near = some (doc_near, 1) := by
  unfold scanScore
  rw [show doc_near.embedding = [1, 0] from rfl]
  rw [cos_unit_unit]
  rw [if_neg (by simp)]
  rw [if_pos (by norm_num [similarity_threshold])]

/-- Candidate fetch order of the two fixture records: the successful one
comes first. -/
theorem fetch_sort_eval :
    List.insertionSort fetchLe [doc_near, doc_far] = [doc_far, doc_near] := by
  have hno : ¬fetchLe doc_near doc_far := by
    norm_num [fetchLe, successKey, doc_near, doc_far]
  simp [List.insertionSort, List.orderedInsert, hno]

/-- Result order of the two scored fixtures: by similarity only. -/
theorem sim_sort_eval :
    List.insertionSort simLe [(doc_far, (24 : ℝ) / 25), (doc_near, 1)] =
      [(doc_near, 1), (doc_far, 24 / 25)] := by
  have hno : ¬simLe (doc_far, (24 : ℝ) / 25) (doc_near, 1) := by
    norm_num [simLe]
  simp [List.insertionSort, List.orderedInsert, hno]

/-- C9 counterexample: with an unsuccessful record at similarity 1 and a
successful record at similarity 24/25 (both at or above the threshold), the
fallback search ranks the unsuccessful record first, contradicting the
claimed success-flag-first ranking on the fallback path. -/
theorem fallback_search_not_success_first :
    doc_near.is_successful = some false ∧ doc_far.is_successful = some true ∧
    (fallback_search [1, 0] [doc_near, doc_far] 5).map
      (fun p => (p.1.id, p.1.is_successful, p.2)) =
      [(1, some false, (1 : ℝ)), (2, some true, 24 / 25)] := by
  refine ⟨rfl, rfl, ?_⟩
  unfold fallback_search
  rw [fetch_sort_eval]
  rw [List.take_of_length_le (by norm_num)]
  rw [if_neg (by simp)]
  simp only [List.filterMap_cons, List.filterMap_nil, scan_far, scan_near]
  rw [sim_sort_eval]
  rw [List.take_of_length_le (by norm_num)]
  simp [doc_near, doc_far]


/-- Cosine similarity with an empty first vector is zero. -/
theorem cosine_nil_left (v : List ℝ) : cosine_similarity [] v = 0 := by
  unfold cosine_similarity
  cases v with
  | nil => simp [Real.sqrt_zero]
  | cons a t => simp

/-- Cosine similarity with an empty second vector is zero. -/
theorem cosine_nil_right (v : List ℝ) : cosine_similarity v [] = 0 := by
  unfold cosine_similarity
  cases v with
  | nil => simp [Real.sqrt_zero]
  | cons a t => simp

/-- C8 amended: for a successful store with a truthy outcome id, if the cache
holds at most 100 records (so all of them are scanned as candidates) and some
stored record has similarity above 0.98 to the message, store_conversation
leaves the store unchanged and returns the identity of a stored record whose
similarity is above 0.98; with more than 100 records the candidate scan can
miss the duplicate (see the counterexample). -/
theorem store_conversation_dedup (emb : String → List ℝ) (st : CacheState)
    (session_id user_message : String) (collected_data : Dict)
    (schedule_id : Option Int) (now : Nat) (d : ConvoDoc)
    (hlen : st.records.length ≤ 100)
    (hd : d ∈ st.records)
    (hsim : (0.98 : ℝ) < cosine_similarity (emb user_message) d.embedding)
    (hsch : pyFalsySched schedule_id = false) :
    (store_conversation emb st session_id user_message collected_data
      schedule_id true now).1 = st ∧
    ∃ r ∈ st.records,
      (0.98 : ℝ) < cosine_similarity (emb user_message) r.embedding ∧
      (store_conversation emb st session_id user_message collected_data
        schedule_id true now).2 = toString r.id := by
  have hqne : (emb user_message).isEmpty = false := by
    cases hq : emb user_message with
    | nil =>
      rw [hq, cosine_nil_left] at hsim
      norm_num at hsim
    | cons a t => rfl
  have hdne : d.embedding.isEmpty = false := by
    cases hq : d.embedding with
    | nil =>
      rw [hq, cosine_nil_right] at hsim
      norm_num at hsim
    | cons a t => rfl
  -- the candidate fetch keeps the whole store
  have hcands : (List.insertionSort fetchLe st.records).take 100 =
      List.insertionSort fetchLe st.records :=
    List.take_of_length_le (by rw [List.length_insertionSort]; exact hlen)
  have hdc : d ∈ List.insertionSort fetchLe st.records :=
    (List.mem_insertionSort fetchLe).mpr hd
  have hscan : scanScore (emb user_message) d =
      some (d, cosine_similarity (emb user_message) d.embedding) := by
    unfold scanScore
    rw [hdne]
    simp only [Bool.false_eq_true, if_false]
    rw [if_pos]
    rw [similarity_threshold]
    linarith
  have hres : (d, cosine_similarity (emb user_message) d.embedding) ∈
      (List.insertionSort fetchLe st.records).filterMap
        (scanScore (emb user_message)) :=
    List.mem_filterMap.mpr ⟨d, hdc, hscan⟩
  have hsorted : (d, cosine_similarity (emb user_message) d.embedding) ∈
      List.insertionSort simLe
        ((List.insertionSort fetchLe st.records).filterMap
          (scanScore (emb user_message))) :=
    (List.mem_insertionSort simLe).mpr hres
  -- the search result
  have hne : (List.insertionSort fetchLe st.records).isEmpty = false := by
    cases hh : List.insertionSort fetchLe st.records with
    | nil => rw [hh] at hdc; exact absurd hdc (List.not_mem_nil d)
    | cons x xs => rfl
  cases hsort : List.insertionSort simLe
      ((List.insertionSort fetchLe st.records).filterMap
        (scanScore (emb user_message))) with
  | nil =>
    rw [hsort] at hsorted
    exact absurd hsorted (List.not_mem_nil _)
  | cons top rest =>
    obtain ⟨tdoc, tsim⟩ := top
    have htop : (0.98 : ℝ) < tsim := by
      have hsd := List.sorted_insertionSort simLe
        ((List.insertionSort fetchLe st.records).filterMap
          (scanScore (emb user_message)))
      rw [hsort] at hsd hsorted
      rcases List.mem_cons.mp hsorted with heq | hmem
      · have : cosine_similarity (emb user_message) d.embedding = tsim := by
          have := congrArg Prod.snd heq
          simpa using this
        rw [← this]
        exact hsim
      · have hrel := List.rel_of_sorted_cons hsd _ hmem
        calc (0.98 : ℝ) < cosine_similarity (emb user_message) d.embedding := hsim
          _ ≤ tsim := hrel
    have hfb : fallback_search (emb user_message) st.records 1 = [(tdoc, tsim)] := by
      unfold fallback_search
      simp only [hcands, hne, Bool.false_eq_true, if_false]
      rw [hsort]
      rfl
    have hsearch : search_similar_conversations emb st.records user_message 1 =
        [(tdoc, tsim)] := by
      unfold search_similar_conversations
      simp only [hqne, Bool.false_eq_true, if_false]
      exact hfb
    -- the top result is a stored record paired with its similarity
    have htoprec : tdoc ∈ st.records ∧
        tsim = cosine_similarity (emb user_message) tdoc.embedding := by
      have hmem2 : (tdoc, tsim) ∈ List.insertionSort simLe
          ((List.insertionSort fetchLe st.records).filterMap
            (scanScore (emb user_message))) := by
        rw [hsort]
        exact List.mem_cons_self _ rest
      have hmem3 := (List.mem_insertionSort simLe).mp hmem2
      obtain ⟨a, ha, hfa⟩ := List.mem_filterMap.mp hmem3
      have hamem : a ∈ st.records := (List.mem_insertionSort fetchLe).mp ha
      unfold scanScore at hfa
      by_cases hae : a.embedding.isEmpty
      · rw [hae] at hfa
        simp at hfa
      · rw [show (a.embedding.isEmpty) = false by simpa using hae] at hfa
        simp only [Bool.false_eq_true, if_false] at hfa
        by_cases hth : similarity_threshold ≤
            cosine_similarity (emb user_message) a.embedding
        · rw [if_pos hth] at hfa
          have h1 := congrArg (fun p => p.map Prod.fst) hfa
          have h2 := congrArg (fun p => p.map Prod.snd) hfa
          simp only [Option.map_some'] at h1 h2
          have ha1 : a = tdoc := by simpa using h1
          have ha2 : cosine_similarity (emb user_message) a.embedding = tsim := by
            simpa using h2
          subst ha1
          exact ⟨hamem, ha2.symm⟩
        · rw [if_neg hth] at hfa
          exact absurd hfa (by simp)
    have hstore : store_conversation emb st session_id user_message
        collected_data schedule_id true now = (st, toString tdoc.id) := by
      unfold store_conversation
      simp only [hsch, Bool.not_true, Bool.false_or, Bool.false_eq_true,
        if_false, hsearch]
      rw [if_pos htop]
    rw [hstore]
    refine ⟨rfl, tdoc, htoprec.1, ?_, rfl⟩
    rw [← htoprec.2]
    exact htop

/-- Cosine similarity of the first unit vector with the vector 3/5, 4/5. -/
theorem cos_unit_fill : cosine_similarity [1, 0] ([3 / 5, 4 / 5] : List ℝ) = 3 / 5 := by
  unfold cosine_similarity
  simp only [List.zip, List.zipWith, List.map_cons, List.map_nil,
    List.sum_cons, List.sum_nil, List.length_cons, List.length_nil]
  norm_num

/-- The filler fixture record scores below the threshold. -/
theorem scan_fill : scanScore [1, 0] doc_fill = Option.none := by
  unfold scanScore
  rw [show doc_fill.embedding = [3 / 5, 4 / 5] from rfl]
  rw [cos_unit_fill]
  rw [if_neg (by simp)]
  rw [if_neg (by norm_num [similarity_threshold])]

/-- Ordered insertion after a replicated block the element does not precede. -/
theorem ordInsert_replicate (a b : ConvoDoc) (h : ¬fetchLe a b) (n : Nat) :
    List.orderedInsert fetchLe a (List.replicate n b) =
      List.replicate n b ++ [a] := by
  induction n with
  | zero => rfl
  | succ n ih =>
    rw [List.replicate_succ]
    simp only [List.orderedInsert, if_neg h]
    rw [ih]
    rfl

/-- filterMap drops a replicated block that maps to nothing. -/
theorem filterMap_replicate_none {α β : Type} (f : α → Option β) (b : α)
    (h : f b = Option.none) (n : Nat) :
    List.filterMap f (List.replicate n b) = [] := by
  induction n with
  | zero => rfl
  | succ n ih =>
    rw [List.replicate_succ, List.filterMap_cons, h, ih]

/-- Candidate order of the 101-record fixture store: the 100 successful
fresher records precede the unsuccessful duplicate. -/
theorem fetch_sort_full :
    List.insertionSort fetchLe st_full.records =
      List.replicate 100 doc_fill ++ [doc_dup] := by
  have hfill : List.insertionSort fetchLe (List.replicate 100 doc_fill) =
      List.replicate 100 doc_fill := by
    apply List.Sorted.insertionSort_eq
    exact List.pairwise_replicate.mpr
      (Or.inr (Or.inr ⟨rfl, le_refl _⟩))
  have hno : ¬fetchLe doc_dup doc_fill := by
    norm_num [fetchLe, successKey, doc_dup, doc_fill]
  show List.insertionSort fetchLe (doc_dup :: List.replicate 100 doc_fill) = _
  rw [List.insertionSort, hfill]
  exact ordInsert_replicate doc_dup doc_fill hno 100

/-- C8 counterexample: in a store of 101 records whose first candidate page
(100 successful, fresher records, all below the threshold) excludes the old
unsuccessful record with similarity 1 to the message, the near-duplicate
check misses and store_conversation inserts a new record although an existing
record has similarity above 0.98, contradicting the claim as universally
stated. -/
theorem store_conversation_dedup_miss :
    (0.98 : ℝ) < cosine_similarity (emb_unit "buatkan report")
      doc_dup.embedding ∧
    doc_dup ∈ st_full.records ∧
    (store_conversation emb_unit st_full "s" "buatkan report" [] (some 77)
      true 9).1.records.length = st_full.records.length + 1 := by
  refine ⟨?_, ?_, ?_⟩
  · rw [show emb_unit "buatkan report" = [1, 0] from rfl,
        show doc_dup.embedding = [1, 0] from rfl, cos_unit_unit]
    norm_num
  · exact List.mem_cons_self _ _
  · have hsearch : search_similar_conversations emb_unit st_full.records
        "buatkan report" 1 = [] := by
      unfold search_similar_conversations
      rw [show emb_unit "buatkan report" = [1, 0] from rfl]
      simp only [List.isEmpty, Bool.false_eq_true, if_false]
      unfold fallback_search
      rw [fetch_sort_full]
      have htake : List.take 100 (List.replicate 100 doc_fill ++ [doc_dup]) =
          List.replicate 100 doc_fill := by
        have h := List.take_left (List.replicate 100 doc_fill) [doc_dup]
        rwa [List.length_replicate] at h
      rw [htake]
      simp only [show ((List.replicate 100 doc_fill).isEmpty) = false from rfl,
        Bool.false_eq_true, if_false,
        filterMap_replicate_none (scanScore [1, 0]) doc_fill scan_fill 100]
      rfl
    unfold store_conversation
    simp only [pyFalsySched, Bool.not_true, Bool.false_or, hsearch]
    norm_num [insertConvo]

/-- C8 witness: with a single stored record identical to the query embedding,
the second store of the same successful outcome is skipped and returns the
stored identity. -/
theorem store_conversation_dedup_witness :
    (store_conversation emb_unit st_one "sess" "buatkan report" [] (some 5)
      true 3).1 = st_one ∧
    ∃ r ∈ st_one.records,
      (0.98 : ℝ) < cosine_similarity (emb_unit "buatkan report") r.embedding ∧
      (store_conversation emb_unit st_one "sess" "buatkan report" [] (some 5)
        true 3).2 = toString r.id :=
  store_conversation_dedup emb_unit st_one "sess" "buatkan report" [] (some 5)
    3 doc_dup (by norm_num [st_one]) (by simp [st_one])
    (by rw [show emb_unit "buatkan report" = [1, 0] from rfl,
          show doc_dup.embedding = [1, 0] from rfl, cos_unit_unit]
        norm_num)
    rfl
